import Mathlib

/-!
Verification of the drag-and-drop exercise builder (`src/types/dragdrop.ts`
and the builder component).  The model and scorer are embedded as pure Lean
functions: the exercise document, the ephemeral placement list, the derived
views (`getZoneItems`, `getUnassignedItems`), the drag handler
(`handleDragEnd` / the placement update it performs), the scorer
(`calculateScore`), validation (`getValidationErrors`), the zone and item
CRUD handlers and the persistence helper (`saveExercise`, with the network
outcome turned into an explicit parameter and local-storage writes recorded
as a list of key/document pairs).
-/

namespace DragDrop

/-- Scoring mode of `settings.scoring`. -/
inductive Scoring where
  | allOrNothing
  | perItem
  | none
deriving DecidableEq

/-- `settings` of `DragDropExerciseV1`. -/
structure Settings where
  shuffleItems : Bool
  allowMultiplePerZone : Bool
  snapToZone : Bool
  scoring : Scoring
  showInstantFeedback : Bool
  backgroundColor : Option String
  contentBackgroundColor : Option String
  zoneBackgroundColor : Option String
  zoneTextColor : Option String
  zoneBorderColor : Option String
deriving DecidableEq

/-- An element of the `zones` array. -/
structure Zone where
  id : String
  title : String
  description : Option String
  accepts : Option (List String)
  color : Option String
deriving DecidableEq

/-- The optional `feedback` object of an item. -/
structure Feedback where
  correct : Option String
  incorrect : Option String
deriving DecidableEq

/-- An element of the `items` array.  `points` is an arbitrary integer in
the model (the TS type is `number`). -/
structure Item where
  id : String
  text : String
  color : Option String
  correctZoneId : String
  altCorrectZoneIds : Option (List String)
  points : Option Int
  feedback : Option Feedback
deriving DecidableEq

/-- The versioned exercise document `DragDropExerciseV1`. -/
structure DragDropExerciseV1 where
  version : Nat
  instructions : Option String
  settings : Settings
  zones : List Zone
  items : List Item
deriving DecidableEq

/-- `ItemPlacement`; `zoneId = none` models the `null` (unassigned) case. -/
structure ItemPlacement where
  itemId : String
  zoneId : Option String
deriving DecidableEq

/-- `createEmptyExercise` from the builder. -/
def createEmptyExercise : DragDropExerciseV1 :=
  { version := 1
    instructions := some ""
    settings :=
      { shuffleItems := true
        allowMultiplePerZone := true
        snapToZone := true
        scoring := Scoring.perItem
        showInstantFeedback := true
        backgroundColor := some "#ffffff"
        contentBackgroundColor := Option.none
        zoneBackgroundColor := Option.none
        zoneTextColor := Option.none
        zoneBorderColor := Option.none }
    zones := []
    items := [] }

/-- `getZoneItems(zoneId)`: placements whose `zoneId` strictly equals the
requested zone are collected, and the exercise's items are filtered to the
collected ids (so the result keeps the item-array order). -/
def getZoneItems (ex : DragDropExerciseV1) (placements : List ItemPlacement)
    (zoneId : String) : List Item :=
  let zoneItemIds :=
    (placements.filter (fun p => p.zoneId == some zoneId)).map (fun p => p.itemId)
  ex.items.filter (fun item => zoneItemIds.contains item.id)

/-- `getUnassignedItems()`: ids of placements whose `zoneId` is not `null`
are collected, and the exercise's items are filtered to those not collected. -/
def getUnassignedItems (ex : DragDropExerciseV1)
    (placements : List ItemPlacement) : List Item :=
  let assignedItemIds :=
    (placements.filter (fun p => !(p.zoneId == Option.none))).map (fun p => p.itemId)
  ex.items.filter (fun item => !(assignedItemIds.contains item.id))

/-- The `setPlacements(prev => prev.map ...)` update performed by
`handleDragEnd`: every placement record for `itemId` gets the new target. -/
def applyPlacement (placements : List ItemPlacement) (itemId : String)
    (target : Option String) : List ItemPlacement :=
  placements.map (fun p =>
    if p.itemId == itemId then { p with zoneId := target } else p)

/-- `handleDragEnd`: `over = none` models a drag ended over no droppable
(`if (!over) return`); otherwise the droppable id `"unassigned"` is decoded
to the `null` target. -/
def handleDragEnd (placements : List ItemPlacement) (activeId : String)
    (over : Option String) : List ItemPlacement :=
  match over with
  | Option.none => placements
  | some overId =>
      applyPlacement placements activeId
        (if overId == "unassigned" then Option.none else some overId)

/-- `item.points || 1`: an absent or falsy (zero) point value counts as 1. -/
def pointsVal (item : Item) : Int :=
  match item.points with
  | Option.none => 1
  | some n => if n = 0 then 1 else n

/-- Result record of `calculateScore`; `correct` models the JS `Set` of
correct ids in insertion order. -/
structure ScoreResult where
  correct : List String
  totalPoints : Int
  earnedPoints : Int
deriving DecidableEq

/-- One iteration of the `exercise.items.forEach` loop of `calculateScore`.
`placement?.zoneId === item.correctZoneId` compares the found placement's
zone (via `Option.bind`) against `some correctZoneId`, and
`item.altCorrectZoneIds?.includes(placement?.zoneId || '')` coerces a
missing or `null` zone to `""` before the membership test. -/
def scoreStep (placements : List ItemPlacement) (acc : ScoreResult)
    (item : Item) : ScoreResult :=
  let totalPoints := acc.totalPoints + pointsVal item
  let pZone := (placements.find? (fun p => p.itemId == item.id)).bind
    (fun p => p.zoneId)
  if pZone == some item.correctZoneId
      || (item.altCorrectZoneIds.getD []).contains (pZone.getD "") then
    { correct :=
        if acc.correct.contains item.id then acc.correct
        else acc.correct ++ [item.id]
      totalPoints := totalPoints
      earnedPoints := acc.earnedPoints + pointsVal item }
  else
    { acc with totalPoints := totalPoints }

/-- `calculateScore`: folds `scoreStep` over the exercise's items starting
from the empty result. -/
def calculateScore (ex : DragDropExerciseV1)
    (placements : List ItemPlacement) : ScoreResult :=
  ex.items.foldl (scoreStep placements) ⟨[], 0, 0⟩

/-- `getValidationErrors`: the four checks push messages in source order. -/
def getValidationErrors (ex : DragDropExerciseV1) : List String :=
  (if ex.zones.length = 0 then ["At least one zone is required"] else [])
  ++ (if ex.items.length = 0 then ["At least one item is required"] else [])
  ++ (ex.items.map (fun item =>
        if item.correctZoneId == ""
            || !(ex.zones.any (fun z => z.id == item.correctZoneId)) then
          ["Item \"" ++ item.text ++ "\" has invalid correct zone"]
        else [])).flatten
  ++ (let zoneTitles := ex.zones.map (fun z => z.title.toLower)
      if zoneTitles.eraseDups.length ≠ zoneTitles.length then
        ["Zone titles must be unique"]
      else [])

/-- Result of `saveExercise`: the returned boolean together with the
`localStorage.setItem` writes it performed (key, stored document).  The
remote `fetch` is modelled by the `remoteOk` parameter: `true` when the PUT
succeeds with an ok response, `false` when it fails or responds non-ok (the
thrown error is caught inside the function). -/
structure SaveResult where
  ok : Bool
  localWrites : List (String × DragDropExerciseV1)
deriving DecidableEq

/-- `saveExercise`: with both locator parts present a successful remote save
returns `true` with no local write; a failed remote save is caught and falls
through to the localStorage fallback, as does an absent locator. -/
def saveExercise (ex : DragDropExerciseV1) (courseId slideId : Option String)
    (remoteOk : Bool) : SaveResult :=
  match courseId, slideId with
  | some _, some _ =>
      if remoteOk then { ok := true, localWrites := [] }
      else { ok := false, localWrites := [("dragdrop-exercise", ex)] }
  | _, _ => { ok := false, localWrites := [("dragdrop-exercise", ex)] }

/-- The builder's model state: the exercise document plus the ephemeral
placement list. -/
structure BuilderState where
  exercise : DragDropExerciseV1
  placements : List ItemPlacement
deriving DecidableEq

/-- The load `useEffect`: the loaded exercise is installed and placements
are initialised with every item unassigned. -/
def loadState (loaded : DragDropExerciseV1) : BuilderState :=
  { exercise := loaded
    placements := loaded.items.map (fun item => ⟨item.id, Option.none⟩) }

/-- The non-editing branch of the item modal's `onSave`: the new item (with
its fresh uuid already substituted) is appended to the items and an
unassigned placement record is appended for it. -/
def addItem (s : BuilderState) (newItem : Item) : BuilderState :=
  { exercise := { s.exercise with items := s.exercise.items ++ [newItem] }
    placements := s.placements ++ [⟨newItem.id, Option.none⟩] }

/-- The item delete handler: the item's placement records and the item
itself are filtered out. -/
def deleteItem (s : BuilderState) (itemId : String) : BuilderState :=
  { exercise :=
      { s.exercise with items := s.exercise.items.filter (fun i => !(i.id == itemId)) }
    placements := s.placements.filter (fun p => !(p.itemId == itemId)) }

/-- The zone delete handler's placement update: placements in the deleted
zone become unassigned. -/
def deleteZonePlacements (placements : List ItemPlacement)
    (zoneId : String) : List ItemPlacement :=
  placements.map (fun p =>
    if p.zoneId == some zoneId then { p with zoneId := Option.none } else p)

/-- The zone delete handler's exercise update: the zone is filtered out and
any item whose `correctZoneId` referenced it gets `correctZoneId := ""`. -/
def deleteZoneExercise (ex : DragDropExerciseV1)
    (zoneId : String) : DragDropExerciseV1 :=
  { ex with
    zones := ex.zones.filter (fun z => !(z.id == zoneId))
    items := ex.items.map (fun item =>
      if item.correctZoneId == zoneId then { item with correctZoneId := "" }
      else item) }

/-- The zone delete handler acting on the whole builder state. -/
def deleteZone (s : BuilderState) (zoneId : String) : BuilderState :=
  { exercise := deleteZoneExercise s.exercise zoneId
    placements := deleteZonePlacements s.placements zoneId }

/-- `handleDragEnd` acting on the whole builder state. -/
def dragEndState (s : BuilderState) (activeId : String)
    (over : Option String) : BuilderState :=
  { s with placements := handleDragEnd s.placements activeId over }

/-- `createSampleExercise`, with the generated uuids as parameters. -/
def createSampleExercise (z1 z2 i1 i2 i3 i4 : String) : DragDropExerciseV1 :=
  { version := 1
    instructions := some "Drag each item to its correct category."
    settings :=
      { shuffleItems := true
        allowMultiplePerZone := true
        snapToZone := true
        scoring := Scoring.perItem
        showInstantFeedback := true
        backgroundColor := some "#ffffff"
        contentBackgroundColor := Option.none
        zoneBackgroundColor := Option.none
        zoneTextColor := Option.none
        zoneBorderColor := Option.none }
    zones :=
      [ ⟨z1, "Fruits", some "Natural sweet foods", Option.none, some "#10B981"⟩,
        ⟨z2, "Vegetables", some "Nutritious plant foods", Option.none, some "#F59E0B"⟩ ]
    items :=
      [ ⟨i1, "Apple", Option.none, "", Option.none, some 1, Option.none⟩,
        ⟨i2, "Carrot", Option.none, "", Option.none, some 1, Option.none⟩,
        ⟨i3, "Banana", Option.none, "", Option.none, some 1, Option.none⟩,
        ⟨i4, "Broccoli", Option.none, "", Option.none, some 1, Option.none⟩ ] }

/-- `loadSampleData`: the sample's four items get their `correctZoneId` set
to the two sample zones by index, then the exercise is installed with an
all-unassigned placement list. -/
def loadSampleData (z1 z2 i1 i2 i3 i4 : String) : BuilderState :=
  let sample := createSampleExercise z1 z2 i1 i2 i3 i4
  let sample :=
    { sample with
      items :=
        match sample.items with
        | [a, b, c, d] =>
            [ { a with correctZoneId := z1 }, { b with correctZoneId := z2 },
              { c with correctZoneId := z1 }, { d with correctZoneId := z2 } ]
        | l => l }
  { exercise := sample
    placements := sample.items.map (fun item => ⟨item.id, Option.none⟩) }

/-! Specification-side definitions, written from the spec's words, to be
compared with the code-side functions above. -/

/-- The zone an item is currently placed in: the zone of its (first)
placement record, `none` when the record is absent or unassigned. -/
def currentZoneId (placements : List ItemPlacement) (itemId : String) :
    Option String :=
  (placements.find? (fun p => p.itemId == itemId)).bind (fun p => p.zoneId)

/-- The claim's correctness condition, read literally: the item's current
placement's zoneId equals `correctZoneId` or appears in
`altCorrectZoneIds`; an absent or unassigned placement matches nothing. -/
def specIsCorrect (placements : List ItemPlacement) (item : Item) : Bool :=
  match currentZoneId placements item.id with
  | some z => z == item.correctZoneId || (item.altCorrectZoneIds.getD []).contains z
  | Option.none => false

/-- The amended correctness condition: as `specIsCorrect`, except that an
absent or unassigned placement is coerced to the empty string before the
`altCorrectZoneIds` membership test (the `|| ''` coercion of the source). -/
def coercedIsCorrect (placements : List ItemPlacement) (item : Item) : Bool :=
  currentZoneId placements item.id == some item.correctZoneId
    || (item.altCorrectZoneIds.getD []).contains
        ((currentZoneId placements item.id).getD "")

/-- The claim's description of `getUnassignedItems`: the item's placement is
null/unassigned, or references a zone id not present in the zone list. -/
def specUnassigned (ex : DragDropExerciseV1)
    (placements : List ItemPlacement) (item : Item) : Bool :=
  match currentZoneId placements item.id with
  | Option.none => true
  | some z => !((ex.zones.map (fun w => w.id)).contains z)

/-- "Some placement record assigns this item to this zone." -/
def hasPlacementIn (placements : List ItemPlacement) (itemId zoneId : String) :
    Bool :=
  placements.any (fun p => p.itemId == itemId && p.zoneId == some zoneId)

/-- Number of the collections `{itemsInZone(z) : z ∈ zones} ∪
{unassignedItems()}` that contain the given item. -/
def appearsCount (ex : DragDropExerciseV1) (placements : List ItemPlacement)
    (item : Item) : Nat :=
  (ex.zones.countP (fun z => decide (item ∈ getZoneItems ex placements z.id)))
  + (if item ∈ getUnassignedItems ex placements then 1 else 0)

/-- The invariant of claim C10: placement item ids correspond one-to-one
(and in order) with the exercise's item ids. -/
def placementInv (s : BuilderState) : Prop :=
  s.placements.map (fun p => p.itemId) = s.exercise.items.map (fun i => i.id)

instance (s : BuilderState) : Decidable (placementInv s) := by
  unfold placementInv
  infer_instance

/-! Concrete fixtures used by examples, witnesses and counterexamples. -/

/-- The Apple item of the spec's worked scoring example. -/
def appleItem : Item :=
  ⟨"Apple", "Apple", Option.none, "Z1", Option.none, some 1, Option.none⟩

/-- The Carrot item of the spec's worked scoring example. -/
def carrotItem : Item :=
  ⟨"Carrot", "Carrot", Option.none, "Z2", Option.none, some 1, Option.none⟩

/-- The exercise of the spec's worked scoring example: zones Fruits (Z1)
and Vegetables (Z2), items Apple (correct Z1) and Carrot (correct Z2). -/
def exScoreExample : DragDropExerciseV1 :=
  { createEmptyExercise with
    zones :=
      [ ⟨"Z1", "Fruits", Option.none, Option.none, Option.none⟩,
        ⟨"Z2", "Vegetables", Option.none, Option.none, Option.none⟩ ]
    items := [appleItem, carrotItem] }

/-- Placements of the worked example: both items dropped in Z1. -/
def psScoreExample : List ItemPlacement :=
  [⟨"Apple", some "Z1"⟩, ⟨"Carrot", some "Z1"⟩]

/-- An item whose `altCorrectZoneIds` contains the empty string. -/
def itemAltEmpty : Item :=
  ⟨"Apple", "Apple", Option.none, "Z1", some [""], some 1, Option.none⟩

/-- Exercise holding `itemAltEmpty` and one zone. -/
def exAltEmpty : DragDropExerciseV1 :=
  { createEmptyExercise with
    zones := [⟨"Z1", "Fruits", Option.none, Option.none, Option.none⟩]
    items := [itemAltEmpty] }

/-- Placement list leaving `itemAltEmpty` unassigned. -/
def psAltEmpty : List ItemPlacement := [⟨"Apple", Option.none⟩]

/-- An item placed (below) into a zone id absent from the zone list. -/
def itemDangling : Item :=
  ⟨"Apple", "Apple", Option.none, "Z1", Option.none, some 1, Option.none⟩

/-- Exercise with a single zone Z1 and the single item `itemDangling`. -/
def exDangling : DragDropExerciseV1 :=
  { createEmptyExercise with
    zones := [⟨"Z1", "Fruits", Option.none, Option.none, Option.none⟩]
    items := [itemDangling] }

/-- Placement referencing the zone id Z9, which is not in the zone list. -/
def psDangling : List ItemPlacement := [⟨"Apple", some "Z9"⟩]

/-- Builder state pairing the worked example with its placements. -/
def stateExample : BuilderState := ⟨exScoreExample, psScoreExample⟩

end DragDrop

namespace DragDrop

/-- `List.contains` agrees with membership for lawful `BEq` types. -/
theorem contains_iff {α : Type} [BEq α] [LawfulBEq α] (l : List α) (a : α) :
    l.contains a = true ↔ a ∈ l :=
  List.elem_iff

/-- Membership in `getZoneItems`: the item belongs to the exercise and some
placement record assigns it to the requested zone. -/
theorem mem_getZoneItems {ex : DragDropExerciseV1} {ps : List ItemPlacement}
    {zid : String} {item : Item} :
    item ∈ getZoneItems ex ps zid ↔
      item ∈ ex.items ∧ ∃ p ∈ ps, p.itemId = item.id ∧ p.zoneId = some zid := by
  simp only [getZoneItems, List.mem_filter, List.elem_iff, List.mem_map,
    List.mem_filter, beq_iff_eq]
  constructor
  · rintro ⟨hmem, ⟨p, ⟨hp, hz⟩, hid⟩⟩
    exact ⟨hmem, p, hp, hid, hz⟩
  · rintro ⟨hmem, p, hp, hid, hz⟩
    exact ⟨hmem, p, ⟨hp, hz⟩, hid⟩

/-- Membership in `getUnassignedItems`: the item belongs to the exercise and
none of its placement records has a non-null zone. -/
theorem mem_getUnassignedItems {ex : DragDropExerciseV1}
    {ps : List ItemPlacement} {item : Item} :
    item ∈ getUnassignedItems ex ps ↔
      item ∈ ex.items ∧ ∀ p ∈ ps, p.itemId = item.id → p.zoneId = Option.none := by
  have hiff : ∀ iid : String,
      (((ps.filter (fun p => !(p.zoneId == Option.none))).map
        (fun p => p.itemId)).contains iid) = true ↔
      ∃ p ∈ ps, p.itemId = iid ∧ p.zoneId ≠ Option.none := by
    intro iid
    rw [contains_iff]
    simp only [List.mem_map, List.mem_filter, Bool.not_eq_true',
      beq_eq_false_iff_ne, ne_eq]
    constructor
    · rintro ⟨p, ⟨hp, hz⟩, hid⟩
      exact ⟨p, hp, hid, hz⟩
    · rintro ⟨p, hp, hid, hz⟩
      exact ⟨p, ⟨hp, hz⟩, hid⟩
  simp only [getUnassignedItems, List.mem_filter, Bool.not_eq_true']
  constructor
  · rintro ⟨hmem, hc⟩
    refine ⟨hmem, fun p hp hid => ?_⟩
    by_contra hz
    have := (hiff item.id).mpr ⟨p, hp, hid, hz⟩
    rw [hc] at this
    cases this
  · rintro ⟨hmem, hall⟩
    refine ⟨hmem, ?_⟩
    by_contra hc
    rw [Bool.not_eq_false] at hc
    obtain ⟨p, hp, hid, hz⟩ := (hiff item.id).mp hc
    exact hz (hall p hp hid)

/-- C5: `validate()` on an exercise with zero zones and zero items returns
(never throws, being a total function) the list whose first element is the
zone-required error and whose second is the item-required error; both
required errors are present and the zone error precedes the item error. -/
theorem getValidationErrors_empty (ex : DragDropExerciseV1)
    (hz : ex.zones = []) (hi : ex.items = []) :
    getValidationErrors ex =
      ["At least one zone is required", "At least one item is required"] ∧
    "At least one zone is required" ∈ getValidationErrors ex ∧
    "At least one item is required" ∈ getValidationErrors ex := by
  have heq : getValidationErrors ex =
      ["At least one zone is required", "At least one item is required"] := by
    simp [getValidationErrors, hz, hi]
    rfl
  exact ⟨heq, by rw [heq]; simp, by rw [heq]; simp⟩

/-- Witness for C5 at the builder's own empty exercise. -/
theorem getValidationErrors_empty_witness :
    getValidationErrors createEmptyExercise =
      ["At least one zone is required", "At least one item is required"] :=
  (getValidationErrors_empty createEmptyExercise rfl rfl).1

/-- C7: with a locator present, a failed remote save returns `false`
(local-only, degraded) and writes the document under the fixed local key;
a successful remote save returns `true` with no local write.  The function
is total, so it never throws. -/
theorem saveExercise_degrades (ex : DragDropExerciseV1) (c s : String) :
    (saveExercise ex (some c) (some s) false).ok = false ∧
    (saveExercise ex (some c) (some s) false).localWrites
      = [("dragdrop-exercise", ex)] ∧
    (saveExercise ex (some c) (some s) true).ok = true ∧
    (saveExercise ex (some c) (some s) true).localWrites = [] := by
  simp [saveExercise]

/-- C3 as stated is false: an item whose placement references the absent
zone Z9 satisfies the spec's unassigned condition, yet
`getUnassignedItems` does not return it. -/
theorem getUnassignedItems_claim_counterexample :
    itemDangling ∈ exDangling.items ∧
    specUnassigned exDangling psDangling itemDangling = true ∧
    itemDangling ∉ getUnassignedItems exDangling psDangling := by
  decide

/-- C3 amended: `unassignedItems()` returns exactly the items that have no
placement record with a non-null zoneId; whether a non-null zoneId
references an existing zone is not consulted. -/
theorem getUnassignedItems_spec (ex : DragDropExerciseV1)
    (ps : List ItemPlacement) (item : Item) :
    item ∈ getUnassignedItems ex ps ↔
      item ∈ ex.items ∧ ∀ p ∈ ps, p.itemId = item.id → p.zoneId = Option.none :=
  mem_getUnassignedItems

end DragDrop

namespace DragDrop

/-- `countP` only depends on the predicate's values on the list. -/
theorem countP_congr' {α : Type} (l : List α) (p q : α → Bool)
    (h : ∀ a ∈ l, p a = q a) : l.countP p = l.countP q := by
  induction l with
  | nil => rfl
  | cons a as ih =>
    rw [List.countP_cons, List.countP_cons, h a (List.mem_cons_self a as),
      ih (fun b hb => h b (List.mem_cons_of_mem a hb))]

/-- The membership test used by `getZoneItems` coincides with
`hasPlacementIn`. -/
theorem contains_filter_map (ps : List ItemPlacement) (iid zid : String) :
    (((ps.filter (fun p => p.zoneId == some zid)).map
      (fun p => p.itemId)).contains iid) = hasPlacementIn ps iid zid := by
  rw [Bool.eq_iff_iff, contains_iff]
  simp only [hasPlacementIn, List.any_eq_true, List.mem_map, List.mem_filter,
    beq_iff_eq, Bool.and_eq_true]
  constructor
  · rintro ⟨p, ⟨hp, hz⟩, hid⟩
    exact ⟨p, hp, hid, hz⟩
  · rintro ⟨p, hp, hid, hz⟩
    exact ⟨p, ⟨hp, hz⟩, hid⟩

/-- C8: `itemsInZone(zoneId)` returns exactly the items some placement
record of which assigns them to the zone, as a filter of the exercise's
item array — hence in item order, a sublist of the items, independent of
placement-insertion order. -/
theorem getZoneItems_spec (ex : DragDropExerciseV1) (ps : List ItemPlacement)
    (zid : String) :
    getZoneItems ex ps zid
      = ex.items.filter (fun item => hasPlacementIn ps item.id zid) ∧
    (getZoneItems ex ps zid).Sublist ex.items := by
  constructor
  · unfold getZoneItems
    exact List.filter_congr (fun item _ => contains_filter_map ps item.id zid)
  · exact List.filter_sublist _

/-- Updating the same item to the same target twice is the same as once. -/
theorem applyPlacement_idem (ps : List ItemPlacement) (iid : String)
    (t : Option String) :
    applyPlacement (applyPlacement ps iid t) iid t = applyPlacement ps iid t := by
  unfold applyPlacement
  rw [List.map_map]
  refine List.map_eq_map_iff.mpr (fun p _ => ?_)
  by_cases hb : p.itemId = iid
  · simp [Function.comp, hb]
  · simp [Function.comp, hb]

/-- C4: placing an item somewhere and then placing it on the `null` target
returns it to `unassignedItems()`, and `applyPlacement` is idempotent for a
fixed (itemId, target) pair. -/
theorem applyPlacement_unassigns_and_idem (ex : DragDropExerciseV1)
    (ps : List ItemPlacement) (item : Item) (z t : Option String) (iid : String)
    (h1 : item ∈ ex.items) (h2 : ∃ p ∈ ps, p.itemId = item.id) :
    item ∈ getUnassignedItems ex
        (applyPlacement (applyPlacement ps item.id z) item.id Option.none) ∧
    applyPlacement (applyPlacement ps iid t) iid t = applyPlacement ps iid t := by
  refine ⟨?_, applyPlacement_idem ps iid t⟩
  rw [mem_getUnassignedItems]
  refine ⟨h1, ?_⟩
  intro q hq hqid
  simp only [applyPlacement, List.mem_map] at hq
  obtain ⟨q1, _, rfl⟩ := hq
  by_cases hb : q1.itemId = item.id
  · simp [hb]
  · simp [hb] at hqid

/-- Witness for C4 on the worked example. -/
theorem applyPlacement_unassigns_and_idem_witness :
    appleItem ∈ getUnassignedItems exScoreExample
        (applyPlacement (applyPlacement psScoreExample appleItem.id (some "Z2"))
          appleItem.id Option.none) ∧
    applyPlacement (applyPlacement psScoreExample "Apple" (some "Z2")) "Apple"
        (some "Z2") = applyPlacement psScoreExample "Apple" (some "Z2") :=
  applyPlacement_unassigns_and_idem exScoreExample psScoreExample appleItem
    (some "Z2") (some "Z2") "Apple" (by decide) ⟨⟨"Apple", some "Z1"⟩, by decide⟩

/-- Updating an item id with no record in the list changes nothing. -/
theorem applyPlacement_of_no_record (ps : List ItemPlacement) (aid : String)
    (t : Option String) (h : ∀ p ∈ ps, p.itemId ≠ aid) :
    applyPlacement ps aid t = ps := by
  unfold applyPlacement
  have hpt : ∀ p ∈ ps,
      (if p.itemId == aid then { p with zoneId := t } else p) = id p :=
    fun p hp => by simp [h p hp]
  rw [List.map_eq_map_iff.mpr hpt, List.map_id]

/-- `applyPlacement` keeps the item ids of the list, positionally. -/
theorem applyPlacement_map_itemId (ps : List ItemPlacement) (aid : String)
    (t : Option String) :
    (applyPlacement ps aid t).map (fun p => p.itemId)
      = ps.map (fun p => p.itemId) := by
  unfold applyPlacement
  rw [List.map_map]
  refine List.map_eq_map_iff.mpr (fun p _ => ?_)
  by_cases hb : p.itemId = aid
  · simp [Function.comp, hb]
  · simp [Function.comp, hb]

/-- `applyPlacement` does not touch the records of other items. -/
theorem applyPlacement_getElem_ne (ps : List ItemPlacement) (aid : String)
    (t : Option String) (i : Nat) (p : ItemPlacement)
    (hip : ps[i]? = some p) (hne : p.itemId ≠ aid) :
    (applyPlacement ps aid t)[i]? = some p := by
  unfold applyPlacement
  rw [List.getElem?_map, hip]
  simp [hne]

/-- C9: a drag ended over no droppable, or for an item id with no placement
record, leaves the placement list unchanged; in general the update creates
no record (item ids are preserved positionally) and leaves every record of
a different item untouched. -/
theorem handleDragEnd_frame (ps : List ItemPlacement) (aid : String)
    (over : Option String) :
    handleDragEnd ps aid Option.none = ps ∧
    ((∀ p ∈ ps, p.itemId ≠ aid) → handleDragEnd ps aid over = ps) ∧
    (handleDragEnd ps aid over).map (fun p => p.itemId)
      = ps.map (fun p => p.itemId) ∧
    ∀ (i : Nat) (p : ItemPlacement), ps[i]? = some p → p.itemId ≠ aid →
      (handleDragEnd ps aid over)[i]? = some p := by
  refine ⟨rfl, ?_, ?_, ?_⟩
  · intro h
    cases over with
    | none => rfl
    | some oid => exact applyPlacement_of_no_record ps aid _ h
  · cases over with
    | none => rfl
    | some oid => exact applyPlacement_map_itemId ps aid _
  · intro i p hip hne
    cases over with
    | none => exact hip
    | some oid => exact applyPlacement_getElem_ne ps aid _ i p hip hne

/-- Witness for C9: dragging an unknown item id changes nothing. -/
theorem handleDragEnd_frame_witness :
    handleDragEnd psScoreExample "Zed" (some "Z2") = psScoreExample :=
  (handleDragEnd_frame psScoreExample "Zed" (some "Z2")).2.1 (by decide)

/-- C6: deleting a zone removes every zone with that id from the zone list
(keeping the others), turns exactly the placements referencing it into
unassigned ones (itemId kept, everything else untouched), and clears
`correctZoneId` on exactly the items that referenced it (all other fields
and items untouched). -/
theorem deleteZone_spec (ex : DragDropExerciseV1) (ps : List ItemPlacement)
    (zid : String) :
    (∀ w ∈ (deleteZoneExercise ex zid).zones, w ∈ ex.zones ∧ w.id ≠ zid) ∧
    (∀ w ∈ ex.zones, w.id ≠ zid → w ∈ (deleteZoneExercise ex zid).zones) ∧
    (deleteZonePlacements ps zid).length = ps.length ∧
    (∀ (i : Nat) (p : ItemPlacement), ps[i]? = some p →
      (p.zoneId = some zid →
        (deleteZonePlacements ps zid)[i]? = some ⟨p.itemId, Option.none⟩) ∧
      (p.zoneId ≠ some zid → (deleteZonePlacements ps zid)[i]? = some p)) ∧
    (deleteZoneExercise ex zid).items.length = ex.items.length ∧
    (∀ (i : Nat) (it : Item), ex.items[i]? = some it →
      (it.correctZoneId = zid → (deleteZoneExercise ex zid).items[i]?
        = some { it with correctZoneId := "" }) ∧
      (it.correctZoneId ≠ zid → (deleteZoneExercise ex zid).items[i]? = some it)) := by
  refine ⟨?_, ?_, ?_, ?_, ?_, ?_⟩
  · intro w hw
    simp only [deleteZoneExercise, List.mem_filter, Bool.not_eq_true',
      beq_eq_false_iff_ne, ne_eq] at hw
    exact ⟨hw.1, hw.2⟩
  · intro w hw hne
    simp only [deleteZoneExercise, List.mem_filter, Bool.not_eq_true',
      beq_eq_false_iff_ne, ne_eq]
    exact ⟨hw, hne⟩
  · simp [deleteZonePlacements]
  · intro i p hip
    constructor <;> intro hz <;>
      · unfold deleteZonePlacements
        rw [List.getElem?_map, hip]
        simp [hz]
  · simp [deleteZoneExercise]
  · intro i it hit
    constructor <;> intro hz <;>
      · unfold deleteZoneExercise
        simp only []
        rw [List.getElem?_map, hit]
        simp [hz]

/-- Witness for C6: deleting Z1 in the worked example unassigns Apple. -/
theorem deleteZone_spec_witness :
    (deleteZonePlacements psScoreExample "Z1")[0]?
      = some ⟨"Apple", Option.none⟩ :=
  ((deleteZone_spec exScoreExample psScoreExample "Z1").2.2.2.1 0
    ⟨"Apple", some "Z1"⟩ (by decide)).1 (by decide)

end DragDrop

namespace DragDrop

/-- C2 as stated is false: with one zone and one item, a placement
referencing the absent zone Z9 leaves the item in none of the collections
`{itemsInZone(z)} ∪ {unassignedItems()}`. -/
theorem placements_partition_counterexample :
    1 ≤ exDangling.zones.length ∧ 1 ≤ exDangling.items.length ∧
    itemDangling ∈ exDangling.items ∧
    appearsCount exDangling psDangling itemDangling = 0 := by
  decide

/-- Two placement records of the same item are equal when the placement
list has at most one record per item id. -/
theorem placement_record_unique {ps : List ItemPlacement}
    (hone : (ps.map (fun p => p.itemId)).Nodup) {p q : ItemPlacement}
    (hp : p ∈ ps) (hq : q ∈ ps) (heq : p.itemId = q.itemId) : p = q :=
  List.inj_on_of_nodup_map hone hp hq heq

/-- A zone list with distinct ids holds exactly one zone of a present id. -/
theorem countP_zones_id (zs : List Zone)
    (hn : (zs.map (fun z => z.id)).Nodup) (z0 : String)
    (hz : z0 ∈ zs.map (fun z => z.id)) :
    zs.countP (fun w => w.id == z0) = 1 := by
  have h1 : zs.countP (fun w => w.id == z0)
      = (zs.map (fun z => z.id)).countP (fun x => x == z0) :=
    (List.countP_map (fun x => x == z0) (fun z : Zone => z.id) zs).symm
  have h2 : (zs.map (fun z => z.id)).countP (fun x => x == z0)
      = (zs.map (fun z => z.id)).count z0 := by
    simp [List.count]
  rw [h1, h2]
  exact List.count_eq_one_of_mem hn hz

/-- C2 amended: for an exercise with at least one zone and one item, whose
zone ids are distinct, and a placement state with at most one record per
item in which every assigned zone id exists in the zone list, every item
appears in exactly one of the collections
`{itemsInZone(z) : z ∈ zones} ∪ {unassignedItems()}`. -/
theorem placements_partition (ex : DragDropExerciseV1)
    (ps : List ItemPlacement)
    (hzn : (ex.zones.map (fun z => z.id)).Nodup)
    (hone : (ps.map (fun p => p.itemId)).Nodup)
    (hzex : ∀ p ∈ ps, p.zoneId = Option.none ∨
      p.zoneId.getD "" ∈ ex.zones.map (fun w => w.id))
    (hz1 : 1 ≤ ex.zones.length) (hi1 : 1 ≤ ex.items.length) :
    ∀ item ∈ ex.items, appearsCount ex ps item = 1 := by
  intro item hitem
  unfold appearsCount
  by_cases h : ∃ p ∈ ps, p.itemId = item.id ∧ p.zoneId ≠ Option.none
  · obtain ⟨p, hp, hpid, hpz⟩ := h
    obtain ⟨z0, hz0⟩ := Option.ne_none_iff_exists'.mp hpz
    have hz0mem : z0 ∈ ex.zones.map (fun w => w.id) := by
      rcases hzex p hp with hnone | hmem
      · rw [hz0] at hnone
        simp at hnone
      · rw [hz0] at hmem
        simpa using hmem
    have hnu : item ∉ getUnassignedItems ex ps := by
      rw [mem_getUnassignedItems]
      rintro ⟨-, hall⟩
      exact hpz (hall p hp hpid)
    have hcongr : ∀ w ∈ ex.zones,
        (decide (item ∈ getZoneItems ex ps w.id)) = (w.id == z0) := by
      intro w hw
      by_cases hid : w.id = z0
      · have hm : item ∈ getZoneItems ex ps z0 :=
          mem_getZoneItems.mpr ⟨hitem, p, hp, hpid, hz0⟩
        simp [hm, hid]
      · have hm : item ∉ getZoneItems ex ps w.id := by
          rw [mem_getZoneItems]
          rintro ⟨-, q, hq, hqid, hqz⟩
          have hpq : q = p :=
            placement_record_unique hone hq hp (by rw [hqid, hpid])
          rw [hpq, hz0] at hqz
          exact hid (Option.some.inj hqz).symm
        simp [hm, hid]
    rw [countP_congr' ex.zones _ _ hcongr, countP_zones_id ex.zones hzn z0 hz0mem]
    simp [hnu]
  · push_neg at h
    have hu : item ∈ getUnassignedItems ex ps :=
      mem_getUnassignedItems.mpr ⟨hitem, h⟩
    have hc0 : ex.zones.countP
        (fun w => decide (item ∈ getZoneItems ex ps w.id)) = 0 := by
      rw [List.countP_eq_zero]
      intro w hw
      simp only [decide_eq_true_eq]
      rw [mem_getZoneItems]
      rintro ⟨-, q, hq, hqid, hqz⟩
      rw [h q hq hqid] at hqz
      simp at hqz
    rw [hc0]
    simp [hu]

/-- Witness for C2 (amended) on the worked example. -/
theorem placements_partition_witness :
    appearsCount exScoreExample psScoreExample appleItem = 1 :=
  placements_partition exScoreExample psScoreExample (by decide) (by decide)
    (by decide) (by decide) (by decide) appleItem (by decide)

end DragDrop

namespace DragDrop

/-- Filtering placements by item id commutes with projecting item ids. -/
theorem filter_map_itemId (ps : List ItemPlacement) (iid : String) :
    (ps.filter (fun p => !(p.itemId == iid))).map (fun p => p.itemId)
      = (ps.map (fun p => p.itemId)).filter (fun x => !(x == iid)) := by
  induction ps with
  | nil => rfl
  | cons p rest ih =>
    by_cases hb : p.itemId = iid
    · simp [List.filter_cons, hb, ih]
    · simp [List.filter_cons, hb, ih]

/-- Filtering items by id commutes with projecting ids. -/
theorem filter_map_id (items : List Item) (iid : String) :
    (items.filter (fun i => !(i.id == iid))).map (fun i => i.id)
      = (items.map (fun i => i.id)).filter (fun x => !(x == iid)) := by
  induction items with
  | nil => rfl
  | cons it rest ih =>
    by_cases hb : it.id = iid
    · simp [List.filter_cons, hb, ih]
    · simp [List.filter_cons, hb, ih]

/-- Deleting a zone keeps the item ids of the placement list. -/
theorem deleteZonePlacements_map_itemId (ps : List ItemPlacement)
    (zid : String) :
    (deleteZonePlacements ps zid).map (fun p => p.itemId)
      = ps.map (fun p => p.itemId) := by
  unfold deleteZonePlacements
  rw [List.map_map]
  refine List.map_eq_map_iff.mpr (fun p _ => ?_)
  by_cases hb : p.zoneId = some zid
  · simp [Function.comp, hb]
  · simp [Function.comp, hb]

/-- Deleting a zone keeps the ids of the item list. -/
theorem deleteZoneExercise_map_id (ex : DragDropExerciseV1) (zid : String) :
    (deleteZoneExercise ex zid).items.map (fun i => i.id)
      = ex.items.map (fun i => i.id) := by
  show (ex.items.map _).map _ = _
  rw [List.map_map]
  refine List.map_eq_map_iff.mpr (fun it _ => ?_)
  by_cases hb : it.correctZoneId = zid
  · simp [Function.comp, hb]
  · simp [Function.comp, hb]

/-- C10: loading an exercise, adding an item, deleting an item, deleting a
zone, applying a placement and loading the sample data all preserve the
invariant that the placement list carries exactly the exercise's item ids
(in order); under distinct item ids this gives exactly one placement record
per item. -/
theorem state_ops_preserve_placementInv (loaded : DragDropExerciseV1)
    (s : BuilderState) (newItem : Item) (iid zid aid : String)
    (over : Option String) (z1 z2 i1 i2 i3 i4 : String) :
    placementInv (loadState loaded) ∧
    (placementInv s → placementInv (addItem s newItem)) ∧
    (placementInv s → placementInv (deleteItem s iid)) ∧
    (placementInv s → placementInv (deleteZone s zid)) ∧
    (placementInv s → placementInv (dragEndState s aid over)) ∧
    placementInv (loadSampleData z1 z2 i1 i2 i3 i4) ∧
    (placementInv s → (s.exercise.items.map (fun i => i.id)).Nodup →
      ∀ item ∈ s.exercise.items,
        (s.placements.filter (fun p => p.itemId == item.id)).length = 1) := by
  refine ⟨?_, ?_, ?_, ?_, ?_, ?_, ?_⟩
  · unfold placementInv loadState
    rw [List.map_map]
    rfl
  · intro h
    unfold placementInv addItem at *
    simp only [List.map_append, List.map_cons, List.map_nil]
    rw [h]
  · intro h
    unfold placementInv deleteItem at *
    rw [filter_map_itemId, filter_map_id, h]
  · intro h
    unfold placementInv deleteZone at *
    rw [deleteZonePlacements_map_itemId, deleteZoneExercise_map_id, h]
  · intro h
    unfold placementInv dragEndState at *
    cases over with
    | none => exact h
    | some oid =>
      show (applyPlacement s.placements aid _).map _ = _
      rw [applyPlacement_map_itemId]
      exact h
  · unfold placementInv loadSampleData createSampleExercise
    rfl
  · intro h hnd item hitem
    rw [← List.countP_eq_length_filter]
    have h1 : s.placements.countP (fun p => p.itemId == item.id)
        = (s.placements.map (fun p => p.itemId)).countP (fun x => x == item.id) :=
      (List.countP_map (fun x => x == item.id)
        (fun p : ItemPlacement => p.itemId) s.placements).symm
    have h2 : (s.exercise.items.map (fun i => i.id)).countP (fun x => x == item.id)
        = (s.exercise.items.map (fun i => i.id)).count item.id := by
      simp [List.count]
    rw [h1, h, h2]
    exact List.count_eq_one_of_mem hnd (List.mem_map.mpr ⟨item, hitem, rfl⟩)

/-- Witness for C10: adding a fresh item to the worked example state. -/
theorem state_ops_preserve_placementInv_witness :
    placementInv (addItem stateExample
      ⟨"Banana", "Banana", Option.none, "Z1", Option.none, some 1, Option.none⟩) :=
  (state_ops_preserve_placementInv exScoreExample stateExample
      ⟨"Banana", "Banana", Option.none, "Z1", Option.none, some 1, Option.none⟩
      "x" "x" "x" Option.none "a" "b" "c" "d" "e" "f").2.1 (by decide)

end DragDrop

namespace DragDrop

/-- `scoreStep` written with the coerced correctness condition; the
condition of the `if` in `scoreStep` is definitionally `coercedIsCorrect`. -/
theorem scoreStep_eq (ps : List ItemPlacement) (acc : ScoreResult)
    (item : Item) :
    scoreStep ps acc item =
      if coercedIsCorrect ps item then
        { correct :=
            if acc.correct.contains item.id then acc.correct
            else acc.correct ++ [item.id]
          totalPoints := acc.totalPoints + pointsVal item
          earnedPoints := acc.earnedPoints + pointsVal item }
      else { acc with totalPoints := acc.totalPoints + pointsVal item } :=
  rfl

/-- Membership in the JS-`Set`-style insert used by `calculateScore`. -/
theorem mem_insertIfAbsent (l : List String) (a str : String) :
    (str ∈ (if l.contains a then l else l ++ [a])) ↔ str ∈ l ∨ str = a := by
  by_cases hc : l.contains a = true
  · rw [if_pos hc]
    constructor
    · exact Or.inl
    · rintro (h | rfl)
      · exact h
      · exact (contains_iff l str).mp hc
  · rw [if_neg hc]
    simp [List.mem_append]

/-- Characterisation of the `calculateScore` fold from any accumulator. -/
theorem scoreFold_spec (ps : List ItemPlacement) (items : List Item)
    (acc : ScoreResult) :
    (items.foldl (scoreStep ps) acc).totalPoints
      = acc.totalPoints + (items.map pointsVal).sum ∧
    (items.foldl (scoreStep ps) acc).earnedPoints
      = acc.earnedPoints
        + ((items.filter (coercedIsCorrect ps)).map pointsVal).sum ∧
    ∀ str : String, str ∈ (items.foldl (scoreStep ps) acc).correct ↔
      str ∈ acc.correct ∨
        ∃ it ∈ items, it.id = str ∧ coercedIsCorrect ps it = true := by
  induction items generalizing acc with
  | nil => simp
  | cons hd tl ih =>
    rw [List.foldl_cons]
    obtain ⟨ih1, ih2, ih3⟩ := ih (scoreStep ps acc hd)
    cases hcor : coercedIsCorrect ps hd with
    | true =>
      have hstep : scoreStep ps acc hd =
          { correct :=
              if acc.correct.contains hd.id then acc.correct
              else acc.correct ++ [hd.id]
            totalPoints := acc.totalPoints + pointsVal hd
            earnedPoints := acc.earnedPoints + pointsVal hd } := by
        rw [scoreStep_eq, if_pos hcor]
      refine ⟨?_, ?_, ?_⟩
      · rw [ih1, hstep, List.map_cons, List.sum_cons]
        ring
      · rw [ih2, hstep, List.filter_cons_of_pos hcor, List.map_cons,
          List.sum_cons]
        ring
      · intro str
        rw [ih3 str]
        have hin : str ∈ (scoreStep ps acc hd).correct ↔
            str ∈ acc.correct ∨ str = hd.id := by
          rw [hstep]
          exact mem_insertIfAbsent acc.correct hd.id str
        rw [hin]
        constructor
        · rintro ((h | rfl) | ⟨it, hit, hid, hc⟩)
          · exact Or.inl h
          · exact Or.inr ⟨hd, List.mem_cons_self hd tl, rfl, hcor⟩
          · exact Or.inr ⟨it, List.mem_cons_of_mem hd hit, hid, hc⟩
        · rintro (h | ⟨it, hit, hid, hc⟩)
          · exact Or.inl (Or.inl h)
          · rcases List.mem_cons.mp hit with rfl | hmem
            · exact Or.inl (Or.inr hid.symm)
            · exact Or.inr ⟨it, hmem, hid, hc⟩
    | false =>
      have hstep : scoreStep ps acc hd =
          { acc with totalPoints := acc.totalPoints + pointsVal hd } := by
        rw [scoreStep_eq, if_neg (by rw [hcor]; exact Bool.false_ne_true)]
      refine ⟨?_, ?_, ?_⟩
      · rw [ih1, hstep, List.map_cons, List.sum_cons]
        ring
      · rw [ih2, hstep,
          List.filter_cons_of_neg (by rw [hcor]; exact Bool.false_ne_true)]
      · intro str
        rw [ih3 str, hstep]
        constructor
        · rintro (h | ⟨it, hit, hid, hc⟩)
          · exact Or.inl h
          · exact Or.inr ⟨it, List.mem_cons_of_mem hd hit, hid, hc⟩
        · rintro (h | ⟨it, hit, hid, hc⟩)
          · exact Or.inl h
          · rcases List.mem_cons.mp hit with rfl | hmem
            · rw [hcor] at hc
              cases hc
            · exact Or.inr ⟨it, hmem, hid, hc⟩

/-- C1 amended: `score` returns totalPoints as the sum of the items' point
values (1 when absent or falsy), the correct set as exactly the item ids
satisfying the coerced correctness condition (placement zone equals
`correctZoneId`, or the placement zone — with an absent or null placement
coerced to the empty string — appears in `altCorrectZoneIds`), and
earnedPoints as the sum of the point values of those items; on the worked
example the result is correct = {Apple}, totalPoints = 2, earnedPoints = 1. -/
theorem calculateScore_spec (ex : DragDropExerciseV1)
    (ps : List ItemPlacement) :
    (calculateScore ex ps).totalPoints = (ex.items.map pointsVal).sum ∧
    (calculateScore ex ps).earnedPoints
      = ((ex.items.filter (coercedIsCorrect ps)).map pointsVal).sum ∧
    (∀ str : String, str ∈ (calculateScore ex ps).correct ↔
      ∃ it ∈ ex.items, it.id = str ∧ coercedIsCorrect ps it = true) ∧
    (calculateScore exScoreExample psScoreExample).correct = ["Apple"] ∧
    (calculateScore exScoreExample psScoreExample).totalPoints = 2 ∧
    (calculateScore exScoreExample psScoreExample).earnedPoints = 1 := by
  obtain ⟨h1, h2, h3⟩ := scoreFold_spec ps ex.items ⟨[], 0, 0⟩
  refine ⟨?_, ?_, ?_, by decide, by decide, by decide⟩
  · simpa [calculateScore] using h1
  · simpa [calculateScore] using h2
  · intro str
    simpa [calculateScore] using h3 str

/-- C1 as stated is false: an unassigned item whose `altCorrectZoneIds`
contains the empty string does not satisfy the claim's correctness
condition, yet `calculateScore` puts its id into the correct set. -/
theorem calculateScore_claim_counterexample :
    itemAltEmpty ∈ exAltEmpty.items ∧
    itemAltEmpty.id = "Apple" ∧
    specIsCorrect psAltEmpty itemAltEmpty = false ∧
    "Apple" ∈ (calculateScore exAltEmpty psAltEmpty).correct := by
  decide

end DragDrop
